import Mathlib

/-!
# Verification of the graffiti decentralized protocol client

A shallow embedding, in Lean, of the protocol layer of the
`graffiti-garden/implementation-decentralized` repository, together with
theorems settling a list of claims about its behaviour.

Strings are modelled at the byte level: a JavaScript string is a
`List Nat` of its UTF-8 bytes (each `< 256`).  The `replace` calls of
`encodeObjectUrlComponent` touch only the ASCII characters `:` and `/`,
and `encodeURIComponent` / `decodeURIComponent` operate per UTF-8 byte
for escaped characters and leave only ASCII characters unescaped, so the
byte-level model agrees with the character-level source on every valid
UTF-8 string.
-/

namespace Graffiti

/-! ## Byte-level model of `encodeURIComponent` / `decodeURIComponent`

`encodeURIComponent` leaves exactly the ASCII characters
`A-Z a-z 0-9 - _ . ! ~ * ' ( )` unescaped and percent-encodes every
other byte as `%XX` with uppercase hexadecimal digits.
`decodeURIComponent` inverts this, failing on a malformed `%` sequence. -/

def uriUnescaped (b : Nat) : Bool :=
  (65 ≤ b && b ≤ 90) || (97 ≤ b && b ≤ 122) || (48 ≤ b && b ≤ 57) ||
  b == 45 || b == 95 || b == 46 || b == 33 || b == 126 ||
  b == 42 || b == 39 || b == 40 || b == 41

def hexDigitChar (n : Nat) : Nat :=
  if n < 10 then 48 + n else 55 + n

def percentEncodeByte (b : Nat) : List Nat :=
  if uriUnescaped b then [b]
  else [37, hexDigitChar (b / 16), hexDigitChar (b % 16)]

def percentEncode (s : List Nat) : List Nat :=
  (s.map percentEncodeByte).flatten

def hexVal (c : Nat) : Option Nat :=
  if 48 ≤ c ∧ c ≤ 57 then some (c - 48)
  else if 65 ≤ c ∧ c ≤ 70 then some (c - 55)
  else if 97 ≤ c ∧ c ≤ 102 then some (c - 87)
  else none

def percentDecode : List Nat → Option (List Nat)
  | [] => some []
  | b :: rest =>
    if b = 37 then
      match rest with
      | h :: l :: rest2 =>
        match hexVal h, hexVal l with
        | some hv, some lv =>
          (percentDecode rest2).map (List.cons (hv * 16 + lv))
        | _, _ => none
      | _ => none
    else (percentDecode rest).map (List.cons b)

/-! ## Object URL encoding (`src/src/3-protocol/1-handles.ts`, object-encoding part)

`encodeObjectUrlComponent` replaces `:` (byte 58) with `!` (33) and `/`
(47) with `~` (126) and then applies `encodeURIComponent`;
`decodeObjectUrlComponent` applies `decodeURIComponent` and then
replaces `!` back to `:` and `~` back to `/`. -/

def substituteColonSlash (b : Nat) : Nat :=
  if b = 58 then 33 else if b = 47 then 126 else b

def unsubstituteColonSlash (b : Nat) : Nat :=
  if b = 33 then 58 else if b = 126 then 47 else b

def encodeObjectUrlComponent (s : List Nat) : List Nat :=
  percentEncode (s.map substituteColonSlash)

def decodeObjectUrlComponent (s : List Nat) : Option (List Nat) :=
  (percentDecode s).map (List.map unsubstituteColonSlash)

/-- The bytes of `"graffiti:"`, the object URL scheme. -/
def graffitiSchemeBytes : List Nat := [103, 114, 97, 102, 102, 105, 116, 105, 58]

def encodeObjectUrl (actor contentAddress : List Nat) : List Nat :=
  graffitiSchemeBytes ++
    encodeObjectUrlComponent actor ++ 58 :: encodeObjectUrlComponent contentAddress

/-- JavaScript `String.prototype.split` with a one-character separator. -/
def splitByte (sep : Nat) : List Nat → List (List Nat)
  | [] => [[]]
  | b :: rest =>
    let r := splitByte sep rest
    if b = sep then [] :: r
    else
      match r with
      | h :: t => (b :: h) :: t
      | [] => [[b]]

/-- `decodeObjectUrl`: check the `graffiti:` scheme (`startsWith` + `slice`),
split the remainder on `:`, require exactly two parts, decode both. -/
def decodeObjectUrl (u : List Nat) : Option (List Nat × List Nat) :=
  if u.take 9 = graffitiSchemeBytes then
    match splitByte 58 (u.drop 9) with
    | [a, c] =>
      match decodeObjectUrlComponent a, decodeObjectUrlComponent c with
      | some actor, some contentAddress => some (actor, contentAddress)
      | _, _ => none
    | _ => none
  else none

/-! ### Round-trip lemmas for the URL codec -/

theorem hexVal_hexDigitChar {n : Nat} (hn : n < 16) :
    hexVal (hexDigitChar n) = some n := by
  interval_cases n <;> rfl

theorem hexDigitChar_ne_colon (n : Nat) : hexDigitChar n ≠ 58 := by
  simp only [hexDigitChar]
  split_ifs <;> omega

theorem percentDecode_cons_unescaped {b : Nat} (hb : uriUnescaped b = true)
    (rest : List Nat) :
    percentDecode (b :: rest) = (percentDecode rest).map (List.cons b) := by
  have h37 : b ≠ 37 := by
    intro h; subst h; simp [uriUnescaped] at hb
  conv_lhs => rw [percentDecode.eq_def]
  simp only [if_neg h37]

theorem percentDecode_percentEncode {s : List Nat} (hs : ∀ b ∈ s, b < 256) :
    percentDecode (percentEncode s) = some s := by
  induction s with
  | nil => rfl
  | cons b rest ih =>
    have hb : b < 256 := hs b (List.mem_cons_self b rest)
    have hrest : ∀ x ∈ rest, x < 256 := fun x hx => hs x (List.mem_cons_of_mem b hx)
    have ihr := ih hrest
    by_cases hu : uriUnescaped b = true
    · have he : percentEncodeByte b = [b] := by simp [percentEncodeByte, hu]
      simp only [percentEncode, List.map_cons, List.flatten_cons, he,
        List.cons_append, List.nil_append]
      rw [percentDecode_cons_unescaped hu]
      simp only [percentEncode] at ihr
      rw [ihr]; rfl
    · have he : percentEncodeByte b =
          [37, hexDigitChar (b / 16), hexDigitChar (b % 16)] := by
        simp [percentEncodeByte, hu]
      simp only [percentEncode, List.map_cons, List.flatten_cons, he,
        List.cons_append, List.nil_append]
      have hdiv : b / 16 < 16 := by omega
      have hmod : b % 16 < 16 := by omega
      show percentDecode (37 :: hexDigitChar (b / 16) :: hexDigitChar (b % 16) ::
          (List.map percentEncodeByte rest).flatten) = some (b :: rest)
      conv_lhs => rw [percentDecode.eq_def]
      simp only [hexVal_hexDigitChar hdiv, hexVal_hexDigitChar hmod, reduceIte]
      simp only [percentEncode] at ihr
      rw [ihr]
      have hb16 : b / 16 * 16 + b % 16 = b := by omega
      rw [hb16]; rfl

theorem mem_percentEncode_ne_colon {s : List Nat} {b : Nat}
    (hb : b ∈ percentEncode s) : b ≠ 58 := by
  induction s with
  | nil => simp [percentEncode] at hb
  | cons c rest ih =>
    simp only [percentEncode, List.map_cons, List.flatten_cons,
      List.mem_append] at hb
    rcases hb with hb | hb
    · by_cases hu : uriUnescaped c = true
      · have he : percentEncodeByte c = [c] := by simp [percentEncodeByte, hu]
        rw [he, List.mem_singleton] at hb
        subst hb
        intro h; subst h; simp [uriUnescaped] at hu
      · have he : percentEncodeByte c =
            [37, hexDigitChar (c / 16), hexDigitChar (c % 16)] := by
          simp [percentEncodeByte, hu]
        rw [he, List.mem_cons, List.mem_cons, List.mem_cons] at hb
        rcases hb with rfl | rfl | rfl | h
        · omega
        · exact hexDigitChar_ne_colon _
        · exact hexDigitChar_ne_colon _
        · simp at h
    · exact ih hb

theorem splitByte_of_not_mem {sep : Nat} {s : List Nat} (h : sep ∉ s) :
    splitByte sep s = [s] := by
  induction s with
  | nil => rfl
  | cons b rest ih =>
    have hb : b ≠ sep := fun hb => h (hb ▸ List.mem_cons_self b rest)
    have hrest : sep ∉ rest := fun hr => h (List.mem_cons_of_mem b hr)
    simp only [splitByte, ih hrest, if_neg hb]

theorem splitByte_append_cons {sep : Nat} {a : List Nat} (b : List Nat)
    (ha : sep ∉ a) :
    splitByte sep (a ++ sep :: b) = a :: splitByte sep b := by
  induction a with
  | nil => simp [splitByte]
  | cons x rest ih =>
    have hx : x ≠ sep := fun hx => ha (hx ▸ List.mem_cons_self x rest)
    have hrest : sep ∉ rest := fun hr => ha (List.mem_cons_of_mem x hr)
    rw [List.cons_append, splitByte]
    simp only [ih hrest, if_neg hx]

theorem unsubstitute_substitute {b : Nat} (h33 : b ≠ 33) (h126 : b ≠ 126) :
    unsubstituteColonSlash (substituteColonSlash b) = b := by
  simp only [substituteColonSlash, unsubstituteColonSlash]
  split_ifs <;> omega

theorem decodeObjectUrlComponent_encodeObjectUrlComponent {s : List Nat}
    (hs : ∀ b ∈ s, b < 256) (h33 : 33 ∉ s) (h126 : 126 ∉ s) :
    decodeObjectUrlComponent (encodeObjectUrlComponent s) = some s := by
  have hsub : ∀ b ∈ s.map substituteColonSlash, b < 256 := by
    intro b hb
    rcases List.mem_map.mp hb with ⟨x, hx, rfl⟩
    have := hs x hx
    simp only [substituteColonSlash]
    split_ifs <;> omega
  rw [decodeObjectUrlComponent, encodeObjectUrlComponent,
    percentDecode_percentEncode hsub]
  show some ((s.map substituteColonSlash).map unsubstituteColonSlash) = some s
  congr 1
  rw [List.map_map]
  calc s.map (unsubstituteColonSlash ∘ substituteColonSlash)
      = s.map id := List.map_congr_left (fun x hx =>
        unsubstitute_substitute (fun h => h33 (h ▸ hx)) (fun h => h126 (h ▸ hx)))
    _ = s := List.map_id s

/-- Claim C2 (counterexample): The round-trip fails for an actor that contains a
literal `!` (a URL-reserved sub-delimiter): the actor `"a:b!c"` (bytes
`[97, 58, 98, 33, 99]`), which contains both `:` and the reserved `!`,
decodes after encoding to `"a:b:c"`, not to itself, because the encoder's
`:`→`!` substitution collides with a pre-existing `!` and
`encodeURIComponent` leaves `!` unescaped. -/
theorem objectUrl_roundtrip_fails_on_bang :
    decodeObjectUrl (encodeObjectUrl [97, 58, 98, 33, 99] [117]) =
      some ([97, 58, 98, 58, 99], [117]) ∧
    ([97, 58, 98, 58, 99] : List Nat) ≠ [97, 58, 98, 33, 99] := by
  constructor
  · rfl
  · decide

/-- Claim C2 (amended): Object-URL round-trip: for every actor and encoded
content-address given as byte strings that contain no literal `!` (33) and no
literal `~` (126) — in particular for every actor containing `:`, `/` or other
URL-reserved characters besides those two — `decodeObjectUrl` inverts
`encodeObjectUrl`, returning the pair unchanged. -/
theorem decodeObjectUrl_encodeObjectUrl (actor contentAddress : List Nat)
    (ha : ∀ b ∈ actor, b < 256) (hc : ∀ b ∈ contentAddress, b < 256)
    (ha33 : 33 ∉ actor) (ha126 : 126 ∉ actor)
    (hc33 : 33 ∉ contentAddress) (hc126 : 126 ∉ contentAddress) :
    decodeObjectUrl (encodeObjectUrl actor contentAddress) =
      some (actor, contentAddress) := by
  have hA : (58 : Nat) ∉ encodeObjectUrlComponent actor := fun h =>
    mem_percentEncode_ne_colon (s := actor.map substituteColonSlash) h rfl
  have hC : (58 : Nat) ∉ encodeObjectUrlComponent contentAddress := fun h =>
    mem_percentEncode_ne_colon (s := contentAddress.map substituteColonSlash) h rfl
  have htake : (encodeObjectUrl actor contentAddress).take 9 =
      graffitiSchemeBytes := rfl
  have hdrop : (encodeObjectUrl actor contentAddress).drop 9 =
      encodeObjectUrlComponent actor ++ 58 :: encodeObjectUrlComponent contentAddress := rfl
  rw [decodeObjectUrl, if_pos htake, hdrop,
    splitByte_append_cons _ hA, splitByte_of_not_mem hC]
  simp only [decodeObjectUrlComponent_encodeObjectUrlComponent ha ha33 ha126,
    decodeObjectUrlComponent_encodeObjectUrlComponent hc hc33 hc126]

/-- Witness for the amended C2 theorem at the actor `"did:web:a/b"` (which
contains both `:` and `/`) and content address `"uA"`. -/
theorem decodeObjectUrl_encodeObjectUrl_witness :
    decodeObjectUrl (encodeObjectUrl
        [100, 105, 100, 58, 119, 101, 98, 58, 97, 47, 98] [117, 65]) =
      some ([100, 105, 100, 58, 119, 101, 98, 58, 97, 47, 98], [117, 65]) :=
  decodeObjectUrl_encodeObjectUrl _ _ (by decide) (by decide) (by decide)
    (by decide) (by decide) (by decide)

end Graffiti

namespace Graffiti

/-! ## Object encoding and validation (`ObjectEncoding` in
`src/src/3-protocol/1-handles.ts`, object-encoding part)

The envelope (`ObjectDataSchema`) is a map `{v, c, a?, n}`.  The
cryptographic primitives and the CBOR codec are external libraries; the
embedding is parametric in them (`Primitives`): the theorems hold for
every implementation of those interfaces. -/

structure ObjectData (V : Type) where
  v : V
  c : List (List Nat)
  a : Option (List (List Nat))
  n : List Nat

structure Primitives (V : Type) where
  stringDecode : List Nat → Option (List Nat)
  getMethod : List Nat → Option Nat
  register : Nat → List Nat → List Nat
  decodeCbor : List Nat → Option (ObjectData V)
  encodeValue : V → List Nat
  chanValidate : List Nat → List Nat → List Nat → Bool
  allowedValidate : List Nat → List Nat → List Nat → Bool

inductive PrivateObjectInfo where
  | recipientCase (recipient : List Nat) (allowedTicket : List Nat)
      (allowedIndex : Nat)
  | selfCase (recipients : List (List Nat)) (allowedTickets : List (List Nat))

inductive ValidationError where
  | invalidObjectUrl
  | stringDecodeFailed
  | contentAddressMethodUnknown
  | contentAddressMismatch
  | cborDecodeFailed
  | valueMismatch
  | channelCountMismatch
  | invalidChannelAttestation
  | publicButThoughtPrivate
  | missingAllowedTicket
  | missingAllowedAttestation
  | invalidAllowedAttestation
  | privateWithoutRecipientInfo
deriving DecidableEq

/-- The loop `for (const [index, attestation] of channelAttestations.entries())`
validating each attestation against the channel public id at the same index. -/
def validateChannels (cv : List Nat → List Nat → List Nat → Bool)
    (actor : List Nat) :
    List (List Nat) → List (List Nat) → Except ValidationError Unit
  | [], _ => .ok ()
  | att :: rest, pid :: prest =>
    if cv att actor pid then validateChannels cv actor rest prest
    else .error .invalidChannelAttestation
  | _ :: _, [] => .error .invalidChannelAttestation

/-- JavaScript `xs.filter((_, i) => i === idx)`, with `i` starting at `start`. -/
def filterByIndex {α : Type} : List α → Nat → Nat → List α
  | [], _, _ => []
  | x :: rest, i, idx =>
    (if i = idx then [x] else []) ++ filterByIndex rest (i + 1) idx

/-- The loop `for (const [index, recipient] of recipients.entries())`:
look up `allowedTickets.at(index)` and `attestations.at(index)` and validate. -/
def allowedLoop (av : List Nat → List Nat → List Nat → Bool)
    (allowedTickets attestations : List (List Nat)) :
    List (List Nat) → Nat → Except ValidationError Unit
  | [], _ => .ok ()
  | recipient :: rest, index =>
    match allowedTickets[index]? with
    | none => .error .missingAllowedTicket
    | some ticket =>
      match attestations[index]? with
      | none => .error .missingAllowedAttestation
      | some att =>
        if av att recipient ticket then
          allowedLoop av allowedTickets attestations rest (index + 1)
        else .error .invalidAllowedAttestation

/-- The recipient-validation tail of `ObjectEncoding.validate`: if
`privateObjectInfo` is given, `a` must be present (else the "public but
thought to be private" error); the recipient case filters the attestations
down to the one at `allowedIndex`.  If no info is given, a present `a`
(even an empty array, which is truthy) is the "private but no recipient
info" error. -/
def validateAllowed (av : List Nat → List Nat → List Nat → Bool)
    (privateObjectInfo : Option PrivateObjectInfo)
    (allowedAttestations : Option (List (List Nat))) :
    Except ValidationError Unit :=
  match privateObjectInfo with
  | some info =>
    match allowedAttestations with
    | none => .error .publicButThoughtPrivate
    | some atts =>
      match info with
      | .recipientCase r ticket idx =>
        allowedLoop av [ticket] (filterByIndex atts 0 idx) [r] 0
      | .selfCase rs ts => allowedLoop av ts atts rs 0
  | none =>
    match allowedAttestations with
    | some _ => .error .privateWithoutRecipientInfo
    | none => .ok ()

def ObjectEncoding.validate {V : Type} (P : Primitives V) (objectValue : V)
    (objectUrl : List Nat) (objectBytes : List Nat)
    (channelPublicIds : List (List Nat))
    (privateObjectInfo : Option PrivateObjectInfo) :
    Except ValidationError Unit :=
  match decodeObjectUrl objectUrl with
  | none => .error .invalidObjectUrl
  | some (actor, contentAddress) =>
    match P.stringDecode contentAddress with
    | none => .error .stringDecodeFailed
    | some contentAddressBytes =>
      match P.getMethod contentAddressBytes with
      | none => .error .contentAddressMethodUnknown
      | some contentAddressMethod =>
        if P.register contentAddressMethod objectBytes ≠ contentAddressBytes then
          .error .contentAddressMismatch
        else
          match P.decodeCbor objectBytes with
          | none => .error .cborDecodeFailed
          | some objectData =>
            if P.encodeValue objectData.v ≠ P.encodeValue objectValue then
              .error .valueMismatch
            else if objectData.c.length ≠ channelPublicIds.length then
              .error .channelCountMismatch
            else
              match validateChannels P.chanValidate actor objectData.c
                  channelPublicIds with
              | .error e => .error e
              | .ok () =>
                validateAllowed P.allowedValidate privateObjectInfo objectData.a

/-! ## `ObjectEncoding.encode` and the envelope size gate -/

def MAX_OBJECT_SIZE_BYTES : Nat := 32 * 1024

structure EncodePrimitives (V : Type) where
  chanAttest : List Nat → List Nat → (List Nat × List Nat)
  allowedAttest : List Nat → (List Nat × List Nat)
  encodeCbor : ObjectData V → List Nat
  register : List Nat → List Nat
  stringEncode : List Nat → List Nat

structure EncodeResult where
  objectUrl : List Nat
  objectBytes : List Nat
  channelPublicIds : List (List Nat)
  allowedTickets : Option (List (List Nat))

inductive EncodeError where
  | tooLarge
deriving DecidableEq

/-- The envelope built by `encode`: channel attestations (one per channel),
optional allowed attestations (one per allowed actor), the nonce. -/
def buildObjectData {V : Type} (E : EncodePrimitives V) (value : V)
    (channels : List (List Nat)) (allowed : Option (List (List Nat)))
    (nonce : List Nat) (actor : List Nat) : ObjectData V :=
  { v := value,
    c := channels.map (fun ch => (E.chanAttest actor ch).1),
    a := allowed.map (fun allowedActors =>
      allowedActors.map (fun r => (E.allowedAttest r).1)),
    n := nonce }

/-- `ObjectEncoding.encode`: build the envelope, CBOR-encode it, refuse
envelopes over `MAX_OBJECT_SIZE_BYTES`, else register the content address
and build the object URL. -/
def ObjectEncoding.encode {V : Type} (E : EncodePrimitives V) (value : V)
    (channels : List (List Nat)) (allowed : Option (List (List Nat)))
    (nonce : List Nat) (actor : List Nat) : Except EncodeError EncodeResult :=
  let objectData := buildObjectData E value channels allowed nonce actor
  let objectBytes := E.encodeCbor objectData
  if objectBytes.length > MAX_OBJECT_SIZE_BYTES then .error .tooLarge
  else
    .ok { objectUrl := encodeObjectUrl actor (E.stringEncode (E.register objectBytes)),
          objectBytes := objectBytes,
          channelPublicIds := channels.map (fun ch => (E.chanAttest actor ch).2),
          allowedTickets := allowed.map (fun allowedActors =>
            allowedActors.map (fun r => (E.allowedAttest r).2)) }

/-- Claim C6: Envelope size gate: `encode` fails with `TooLarge` exactly when
the CBOR-encoded envelope exceeds 32 KiB (32768 bytes); an envelope of at
most 32 KiB is not refused by this check, and in the failing case no object
URL is produced (the error carries no result). -/
theorem encode_size_gate {V : Type} (E : EncodePrimitives V) (value : V)
    (channels : List (List Nat)) (allowed : Option (List (List Nat)))
    (nonce : List Nat) (actor : List Nat) :
    (ObjectEncoding.encode E value channels allowed nonce actor =
        .error .tooLarge ↔
      MAX_OBJECT_SIZE_BYTES <
        (E.encodeCbor (buildObjectData E value channels allowed nonce actor)).length) ∧
    ((E.encodeCbor (buildObjectData E value channels allowed nonce actor)).length ≤
        MAX_OBJECT_SIZE_BYTES →
      ∃ r, ObjectEncoding.encode E value channels allowed nonce actor = .ok r ∧
        r.objectBytes = E.encodeCbor (buildObjectData E value channels allowed nonce actor)) := by
  constructor
  · rw [ObjectEncoding.encode]
    split
    · rename_i h
      simp only [gt_iff_lt] at h
      simp [h]
    · rename_i h
      simp only [gt_iff_lt, not_lt] at h
      constructor
      · intro hcontra; exact absurd hcontra (by simp)
      · intro hlt; omega
  · intro hle
    rw [ObjectEncoding.encode]
    split
    · rename_i h; simp only [gt_iff_lt] at h; omega
    · exact ⟨_, rfl, rfl⟩

/-- Witness for C6: with a CBOR encoder returning a fixed 3-byte envelope,
the gate does not fire and encoding succeeds. -/
theorem encode_size_gate_witness :
    ∃ r, ObjectEncoding.encode
        (V := Nat)
        { chanAttest := fun _ _ => ([], []),
          allowedAttest := fun _ => ([], []),
          encodeCbor := fun _ => [1, 2, 3],
          register := fun bytes => bytes,
          stringEncode := fun bytes => bytes }
        0 [] none [] [97] = .ok r ∧
      r.objectBytes = [1, 2, 3] :=
  (encode_size_gate _ 0 [] none [] [97]).2 (by norm_num [MAX_OBJECT_SIZE_BYTES])

end Graffiti

namespace Graffiti

theorem filterByIndex_eq_nil {α : Type} :
    ∀ (xs : List α) (i idx : Nat), xs.length + i ≤ idx →
      filterByIndex xs i idx = [] := by
  intro xs
  induction xs with
  | nil => intro i idx _; rfl
  | cons x rest ih =>
    intro i idx h
    have hi : i ≠ idx := by simp only [List.length_cons] at h; omega
    have hrest : rest.length + (i + 1) ≤ idx := by
      simp only [List.length_cons] at h; omega
    simp [filterByIndex, hi, ih _ _ hrest]

/-- Claim C4: Public/private envelope discriminant: on an envelope whose
content address, value and channel attestations all check out, a call to
`ObjectEncoding.validate` without private-object info fails exactly when the
decoded envelope carries the allowed-attestations field `a` (even an empty
`a`, which is truthy in the source); and a call with private-object info
supplied fails whenever the envelope lacks `a`. -/
theorem validate_public_private_discriminant {V : Type} (P : Primitives V)
    (objectValue : V) (objectUrl objectBytes : List Nat)
    (channelPublicIds : List (List Nat)) (actor contentAddress : List Nat)
    (objectData : ObjectData V)
    (hurl : decodeObjectUrl objectUrl = some (actor, contentAddress))
    (hdec : ∃ cab m, P.stringDecode contentAddress = some cab ∧
        P.getMethod cab = some m ∧ P.register m objectBytes = cab)
    (hcbor : P.decodeCbor objectBytes = some objectData)
    (hval : P.encodeValue objectData.v = P.encodeValue objectValue)
    (hlen : objectData.c.length = channelPublicIds.length)
    (hchan : validateChannels P.chanValidate actor objectData.c
        channelPublicIds = .ok ()) :
    (ObjectEncoding.validate P objectValue objectUrl objectBytes
        channelPublicIds none = .ok () ↔ objectData.a = none) ∧
    (∀ info, objectData.a = none →
      ObjectEncoding.validate P objectValue objectUrl objectBytes
          channelPublicIds (some info) = .error .publicButThoughtPrivate) := by
  obtain ⟨cab, m, hsd, hgm, hreg⟩ := hdec
  have hmain : ∀ info, ObjectEncoding.validate P objectValue objectUrl
      objectBytes channelPublicIds info =
      validateAllowed P.allowedValidate info objectData.a := by
    intro info
    rw [ObjectEncoding.validate, hurl]
    simp only [hsd, hgm, hreg, hcbor, hval, hlen, hchan, ne_eq,
      not_true_eq_false, if_false, ite_false, reduceIte]
  constructor
  · rw [hmain none]
    cases ha : objectData.a with
    | none => simp [validateAllowed]
    | some atts => simp [validateAllowed]
  · intro info ha
    rw [hmain (some info), ha]
    rfl

/-- A concrete instantiation of the validation primitives used by the
witnesses: the identity string codec, a single hash method, the identity
register, a CBOR decoder with one fixed envelope, always-valid attestations. -/
def witnessPrimitives (envelope : ObjectData Nat) : Primitives Nat :=
  { stringDecode := fun s => some s,
    getMethod := fun _ => some 0,
    register := fun _ bytes => bytes,
    decodeCbor := fun _ => some envelope,
    encodeValue := fun n => [n],
    chanValidate := fun _ _ _ => true,
    allowedValidate := fun _ _ _ => true }

/-- Witness for C4 at a concrete public envelope and the URL
`encodeObjectUrl "a" "u"` (whose content address decodes to the object
bytes themselves under the identity codec). -/
theorem validate_public_private_discriminant_witness :
    (ObjectEncoding.validate (witnessPrimitives ⟨0, [], none, []⟩) 0
        (encodeObjectUrl [97] [117]) [117] [] none = .ok () ↔
      (none : Option (List (List Nat))) = none) ∧
    (∀ info, (none : Option (List (List Nat))) = none →
      ObjectEncoding.validate (witnessPrimitives ⟨0, [], none, []⟩) 0
          (encodeObjectUrl [97] [117]) [117] [] (some info) =
        .error .publicButThoughtPrivate) :=
  validate_public_private_discriminant _ 0 _ [117] [] [97] [117]
    ⟨0, [], none, []⟩ (by rfl) ⟨[117], 0, rfl, rfl, rfl⟩ rfl rfl rfl rfl

/-- Claim C9: Out-of-range allowed index is rejected, not vacuously accepted:
on a private envelope with attestation list `a` and recipient-case info whose
`allowedIndex` is at least the length of `a`, the JavaScript `filter` over
indices selects nothing, `attestations.at(index)` is looked up totally (no
out-of-bounds access), and `validate` fails with the missing-attestation
error rather than succeeding. -/
theorem validate_out_of_range_allowed_index {V : Type} (P : Primitives V)
    (objectValue : V) (objectUrl objectBytes : List Nat)
    (channelPublicIds : List (List Nat)) (actor contentAddress : List Nat)
    (objectData : ObjectData V) (atts : List (List Nat))
    (recipient ticket : List Nat) (idx : Nat)
    (hurl : decodeObjectUrl objectUrl = some (actor, contentAddress))
    (hdec : ∃ cab m, P.stringDecode contentAddress = some cab ∧
        P.getMethod cab = some m ∧ P.register m objectBytes = cab)
    (hcbor : P.decodeCbor objectBytes = some objectData)
    (hval : P.encodeValue objectData.v = P.encodeValue objectValue)
    (hlen : objectData.c.length = channelPublicIds.length)
    (hchan : validateChannels P.chanValidate actor objectData.c
        channelPublicIds = .ok ())
    (ha : objectData.a = some atts)
    (hidx : atts.length ≤ idx) :
    ObjectEncoding.validate P objectValue objectUrl objectBytes
        channelPublicIds (some (.recipientCase recipient ticket idx)) =
      .error .missingAllowedAttestation := by
  obtain ⟨cab, m, hsd, hgm, hreg⟩ := hdec
  rw [ObjectEncoding.validate, hurl]
  simp only [hsd, hgm, hreg, hcbor, hval, hlen, hchan, ne_eq,
    not_true_eq_false, if_false, ite_false, reduceIte]
  rw [ha]
  have hfilter : filterByIndex atts 0 idx = [] :=
    filterByIndex_eq_nil atts 0 idx (by omega)
  rw [validateAllowed.eq_def]
  show allowedLoop P.allowedValidate [ticket] (filterByIndex atts 0 idx)
      [recipient] 0 = .error .missingAllowedAttestation
  rw [hfilter]
  rfl

/-- Witness for C9: a private envelope with a single allowed attestation and
`allowedIndex = 5` fails with the missing-attestation error. -/
theorem validate_out_of_range_allowed_index_witness :
    ObjectEncoding.validate (witnessPrimitives ⟨0, [], some [[1]], []⟩) 0
        (encodeObjectUrl [97] [117]) [117] []
        (some (.recipientCase [98] [9] 5)) =
      .error .missingAllowedAttestation :=
  validate_out_of_range_allowed_index _ 0 _ [117] [] [97] [117]
    ⟨0, [], some [[1]], []⟩ [[1]] [98] [9] 5 (by rfl)
    ⟨[117], 0, rfl, rfl, rfl⟩ rfl rfl rfl rfl rfl (by norm_num)

end Graffiti

namespace Graffiti

/-! ## The merged discover stream (`GraffitiDecentralized.discoverMeta`,
`src/src/3-protocol/4-graffiti.ts`)

`discoverMeta` races the per-endpoint iterators and processes their
results one at a time; the embedding models an arbitrary interleaving as
the list of per-endpoint results in the order they win the race.  The
`tombstones : Map<string, boolean>` is an association list; URLs are an
arbitrary type with decidable equality. -/

inductive EndpointResult (Url : Type) where
  | tomb (url : Url)
  | live (url : Url) (receivedTags : List (List Nat))

inductive DiscoverYield (Url : Type) where
  | tombstoneYield (url : Url)
  | objectYield (url : Url) (channels : List (List Nat))
  | channelMismatchError (url : Url)
deriving DecidableEq

def mapGet {Url : Type} [DecidableEq Url] :
    List (Url × Bool) → Url → Option Bool
  | [], _ => none
  | (k, v) :: rest, u => if k = u then some v else mapGet rest u

def mapSet {Url : Type} [DecidableEq Url] :
    List (Url × Bool) → Url → Bool → List (Url × Bool)
  | [], u, b => [(u, b)]
  | (k, v) :: rest, u, b =>
    if k = u then (u, b) :: rest else (k, v) :: mapSet rest u b

/-- The `tags.reduce` collecting the indices of query tags that byte-equal
some received tag. -/
def matchedTagIndices (tags receivedTags : List (List Nat)) : List Nat :=
  (tags.enum.filter (fun p => receivedTags.any (fun rt => rt == p.2))).map
    (fun p => p.1)

/-- `matchedTagIndices.map((index) => channels[index])`. -/
def matchedChannels (channels : List (List Nat))
    (register : List Nat → List Nat) (receivedTags : List (List Nat)) :
    List (List Nat) :=
  (matchedTagIndices (channels.map register) receivedTags).map
    (fun i => channels.getD i [])

/-- One iteration of the `discoverMeta` race loop on a non-done result: the
tombstone branch skips a result whose URL state is already `true` and
otherwise yields the tombstone and sets the state to `true`; the live branch
skips a result whose URL state is already `false` ("filter already seen"),
otherwise computes the matched channels, yields the no-matching-channels
error when there are none, sets the state to `false` and yields the object
with its channels filtered to the matched ones. -/
def processResult {Url : Type} [DecidableEq Url] (channels : List (List Nat))
    (register : List Nat → List Nat) (st : List (Url × Bool)) :
    EndpointResult Url → List (DiscoverYield Url) × List (Url × Bool)
  | .tomb url =>
    if mapGet st url = some true then ([], st)
    else ([.tombstoneYield url], mapSet st url true)
  | .live url receivedTags =>
    if mapGet st url = some false then ([], st)
    else
      let mc := matchedChannels channels register receivedTags
      ((if mc.length = 0 then [.channelMismatchError url] else []) ++
          [.objectYield url mc],
        mapSet st url false)

def discoverLoop {Url : Type} [DecidableEq Url] (channels : List (List Nat))
    (register : List Nat → List Nat) :
    List (Url × Bool) → List (EndpointResult Url) → List (DiscoverYield Url)
  | _, [] => []
  | st, r :: rest =>
    (processResult channels register st r).1 ++
      discoverLoop channels register (processResult channels register st r).2 rest

/-- The yields of `discoverMeta` on a given interleaving of per-endpoint
results, starting with the empty `tombstones` map. -/
def discoverMetaYields {Url : Type} [DecidableEq Url]
    (channels : List (List Nat)) (register : List Nat → List Nat)
    (events : List (EndpointResult Url)) : List (DiscoverYield Url) :=
  discoverLoop channels register [] events

/-- The property claimed of the merged stream: once a tombstone for a URL has
been yielded, no later live object with the same URL is yielded, and the
tombstone is yielded at most once per URL. -/
def TombstonesWin {Url : Type} [DecidableEq Url]
    (ys : List (DiscoverYield Url)) : Prop :=
  (∀ (i j : Nat) (u : Url), i < j →
    ys[i]? = some (DiscoverYield.tombstoneYield u) →
    ∀ cs : List (List Nat), ys[j]? ≠ some (DiscoverYield.objectYield u cs)) ∧
  (∀ u, ys.countP (fun y => y == DiscoverYield.tombstoneYield u) ≤ 1)

/-- Claim C1 (counterexample): On the result sequence
tombstone(`u`), live(`u`), tombstone(`u`) — a live copy of an object winning
the race after a tombstone from another endpoint — `discoverMeta` yields the
live object *after* the tombstone (the live branch only skips URLs whose
state is `false`, i.e. already seen live, not tombstoned URLs) and then
yields the tombstone a second time. -/
theorem discover_tombstone_precedence_fails :
    @discoverMetaYields Nat _ [[99]] (fun _ => [0])
        [.tomb 0, .live 0 [[0]], .tomb 0] =
      [.tombstoneYield 0, .objectYield 0 [[99]], .tombstoneYield 0] ∧
    ¬ TombstonesWin (@discoverMetaYields Nat _ [[99]] (fun _ => [0])
        [.tomb 0, .live 0 [[0]], .tomb 0]) := by
  have h : @discoverMetaYields Nat _ [[99]] (fun _ => [0])
      [.tomb 0, .live 0 [[0]], .tomb 0] =
      [.tombstoneYield 0, .objectYield 0 [[99]], .tombstoneYield 0] := by rfl
  refine ⟨h, ?_⟩
  rw [h]
  rintro ⟨h1, _⟩
  exact h1 0 1 0 (by norm_num) rfl [[99]] rfl

/-- The tombstone/live kind of a yield for the URL `u` (`true` = tombstone,
`false` = live object); other yields carry no kind. -/
def tombKindFor {Url : Type} [DecidableEq Url] (u : Url) :
    DiscoverYield Url → Option Bool
  | .tombstoneYield v => if v = u then some true else none
  | .objectYield v _ => if v = u then some false else none
  | .channelMismatchError _ => none

/-- `alternatingFrom b ks`: the kinds `ks` never repeat consecutively,
starting from the previously yielded kind `b` (if any). -/
def alternatingFrom : Option Bool → List Bool → Bool
  | _, [] => true
  | none, k :: ks => alternatingFrom (some k) ks
  | some b, k :: ks => decide (k ≠ b) && alternatingFrom (some k) ks

theorem mapGet_mapSet {Url : Type} [DecidableEq Url] :
    ∀ (st : List (Url × Bool)) (k u : Url) (b : Bool),
      mapGet (mapSet st k b) u = if k = u then some b else mapGet st u := by
  intro st
  induction st with
  | nil => intro k u b; simp [mapGet, mapSet]
  | cons p rest ih =>
    intro k u b
    obtain ⟨k2, v2⟩ := p
    by_cases hk : k2 = k
    · subst hk
      simp only [mapSet, if_pos rfl, mapGet]
      by_cases hu : k2 = u <;> simp [hu]
    · simp only [mapSet, if_neg hk, mapGet]
      by_cases hu : k2 = u
      · subst hu
        have : ¬ k = k2 := fun h => hk h.symm
        simp [mapGet, this]
      · simp [mapGet, hu, ih]

theorem alternatingFrom_nil (b : Option Bool) : alternatingFrom b [] = true := by
  cases b <;> rfl

theorem alternatingFrom_none_cons (k : Bool) (ks : List Bool) :
    alternatingFrom none (k :: ks) = alternatingFrom (some k) ks := rfl

theorem alternatingFrom_some_cons (b k : Bool) (ks : List Bool) :
    alternatingFrom (some b) (k :: ks) =
      (decide (k ≠ b) && alternatingFrom (some k) ks) := rfl

theorem filterMap_tombKindFor_mismatch {Url : Type} [DecidableEq Url]
    (u url : Url) (c : Prop) [Decidable c] :
    List.filterMap (tombKindFor u)
      (if c then [DiscoverYield.channelMismatchError url] else []) = [] := by
  split <;> simp [tombKindFor]

theorem discoverLoop_alternatingFrom {Url : Type} [DecidableEq Url]
    (channels : List (List Nat)) (register : List Nat → List Nat) (u : Url) :
    ∀ (events : List (EndpointResult Url)) (st : List (Url × Bool)),
      alternatingFrom (mapGet st u)
        ((discoverLoop channels register st events).filterMap (tombKindFor u)) =
        true := by
  intro events
  induction events with
  | nil => intro st; simp [discoverLoop, alternatingFrom_nil]
  | cons r rest ih =>
    intro st
    have hloop : discoverLoop channels register st (r :: rest) =
        (processResult channels register st r).1 ++
          discoverLoop channels register
            (processResult channels register st r).2 rest := rfl
    rw [hloop, List.filterMap_append]
    cases r with
    | tomb url =>
      by_cases hget : mapGet st url = some true
      · have h1 : processResult channels register st (EndpointResult.tomb url) =
            ([], st) := by
          simp [processResult, hget]
        rw [h1]
        simpa using ih st
      · have h1 : processResult channels register st (EndpointResult.tomb url) =
            ([DiscoverYield.tombstoneYield url], mapSet st url true) := by
          simp [processResult, hget]
        rw [h1]
        have hrest := ih (mapSet st url true)
        by_cases hu : url = u
        · subst hu
          have hfm : List.filterMap (tombKindFor url)
              [DiscoverYield.tombstoneYield url] = [true] := by
            simp [tombKindFor]
          rw [hfm]
          rw [mapGet_mapSet, if_pos rfl] at hrest
          show alternatingFrom (mapGet st url) (true :: _) = true
          cases hcur : mapGet st url with
          | none => rw [alternatingFrom_none_cons]; exact hrest
          | some b =>
            have hb : b = false := by
              cases b
              · rfl
              · exact absurd hcur hget
            subst hb
            rw [alternatingFrom_some_cons]
            simpa using hrest
        · have hfm : List.filterMap (tombKindFor u)
              [DiscoverYield.tombstoneYield url] = [] := by
            simp [tombKindFor, hu]
          rw [hfm, List.nil_append]
          rw [mapGet_mapSet, if_neg hu] at hrest
          exact hrest
    | live url receivedTags =>
      by_cases hget : mapGet st url = some false
      · have h1 : processResult channels register st
            (EndpointResult.live url receivedTags) = ([], st) := by
          simp [processResult, hget]
        rw [h1]
        simpa using ih st
      · have h1 : processResult channels register st
            (EndpointResult.live url receivedTags) =
            ((if (matchedChannels channels register receivedTags).length = 0
                then [DiscoverYield.channelMismatchError url] else []) ++
              [DiscoverYield.objectYield url
                (matchedChannels channels register receivedTags)],
              mapSet st url false) := by
          simp [processResult, hget]
        rw [h1]
        rw [List.filterMap_append, filterMap_tombKindFor_mismatch,
          List.nil_append]
        have hrest := ih (mapSet st url false)
        by_cases hu : url = u
        · subst hu
          have hfm : List.filterMap (tombKindFor url)
              [DiscoverYield.objectYield url
                (matchedChannels channels register receivedTags)] = [false] := by
            simp [tombKindFor]
          rw [hfm]
          rw [mapGet_mapSet, if_pos rfl] at hrest
          show alternatingFrom (mapGet st url) (false :: _) = true
          cases hcur : mapGet st url with
          | none => rw [alternatingFrom_none_cons]; exact hrest
          | some b =>
            have hb : b = true := by
              cases b
              · exact absurd hcur hget
              · rfl
            subst hb
            rw [alternatingFrom_some_cons]
            simpa using hrest
        · have hfm : List.filterMap (tombKindFor u)
              [DiscoverYield.objectYield url
                (matchedChannels channels register receivedTags)] = [] := by
            simp [tombKindFor, hu]
          rw [hfm, List.nil_append]
          rw [mapGet_mapSet, if_neg hu] at hrest
          exact hrest
/-- Claim C1 (amended): Per-URL yields of the merged discover stream strictly
alternate between tombstone and live: a tombstone result is skipped exactly
when the URL's last yield was a tombstone, and a live result is skipped
exactly when the URL's last yield was a live object.  In particular no two
consecutive tombstones and no two consecutive live objects are yielded for
the same URL — but a live object arriving after a tombstone *is* yielded
(resetting the URL's state to live), and a tombstone may then be yielded
again. -/
theorem discover_per_url_yields_alternate {Url : Type} [DecidableEq Url]
    (channels : List (List Nat)) (register : List Nat → List Nat)
    (events : List (EndpointResult Url)) (u : Url) :
    alternatingFrom none
      ((discoverMetaYields channels register events).filterMap (tombKindFor u)) =
      true :=
  discoverLoop_alternatingFrom channels register u events []

end Graffiti

namespace Graffiti

/-! ## The cursor-endpoint check at the head of `discoverMeta`

Before any per-endpoint iterator is created, `discoverMeta` picks the inbox
set (personal + shared inboxes of the session, or the default public inboxes
when unauthenticated) and checks every endpoint of the supplied `cursors` map
against it, throwing `Forbidden` on a foreign endpoint. -/

inductive DiscoverError where
  | forbidden
deriving DecidableEq

structure QueryAction where
  endpoint : String
  continuation : Bool
deriving DecidableEq

/-- `for (const endpoint in cursors) { if (!allInboxes.some(...)) throw }`. -/
def checkCursors (allInboxes : List String) :
    List String → Except DiscoverError Unit
  | [] => .ok ()
  | e :: rest =>
    if allInboxes.any (fun i => i == e) then checkCursors allInboxes rest
    else .error .forbidden

/-- The inbox set used by `discoverMeta` and the queries it issues: with a
session, the personal and shared inboxes; otherwise the default endpoints.
The returned action list is empty when the cursor check throws `Forbidden`. -/
def discoverMetaStart (sessionInboxes : Option (List String))
    (defaultInboxEndpoints : List String)
    (cursors : List (String × String)) :
    List QueryAction × Option DiscoverError :=
  let allInboxes :=
    match sessionInboxes with
    | some inboxes => inboxes
    | none => defaultInboxEndpoints
  match checkCursors allInboxes (cursors.map (fun c => c.1)) with
  | .error e => ([], some e)
  | .ok () =>
    (allInboxes.map (fun i =>
      { endpoint := i,
        continuation := (cursors.find? (fun c => c.1 == i)).isSome }),
      none)

theorem checkCursors_error {allInboxes : List String} :
    ∀ (es : List String), (∃ x ∈ es, x ∉ allInboxes) →
      checkCursors allInboxes es = .error .forbidden := by
  intro es
  induction es with
  | nil => rintro ⟨x, hx, _⟩; exact absurd hx (List.not_mem_nil x)
  | cons e rest ih =>
    rintro ⟨x, hx, hnot⟩
    rw [List.mem_cons] at hx
    by_cases he : allInboxes.any (fun i => i == e) = true
    · rw [checkCursors, if_pos he]
      rcases hx with rfl | hx
      · exfalso
        rw [List.any_eq_true] at he
        obtain ⟨i, hi, hie⟩ := he
        rw [beq_iff_eq] at hie
        exact hnot (hie ▸ hi)
      · exact ih ⟨x, hx, hnot⟩
    · rw [checkCursors, if_neg he]

/-- Claim C10: Discover cursor endpoints must belong to the session's inbox
set: if the `cursors` map passed to `discoverMeta` (e.g. via
`continueDiscover`) contains an endpoint that is not among the inboxes
derived from the session (or the default public inboxes when
unauthenticated), the stream raises `Forbidden` and issues no query to any
endpoint. -/
theorem discoverMeta_foreign_cursor_forbidden
    (sessionInboxes : Option (List String)) (defaults : List String)
    (cursors : List (String × String)) (entry : String × String)
    (hmem : entry ∈ cursors)
    (hforeign : entry.1 ∉
      (match sessionInboxes with
        | some inboxes => inboxes
        | none => defaults)) :
    discoverMetaStart sessionInboxes defaults cursors =
      ([], some .forbidden) := by
  rw [discoverMetaStart.eq_def]
  have hcheck := checkCursors_error (cursors.map (fun c => c.1))
    ⟨entry.1, List.mem_map_of_mem _ hmem, hforeign⟩
  simp only [hcheck]

/-- Witness for C10: a session whose only inbox is `"a"` and a cursor map
holding a cursor for the foreign endpoint `"b"`. -/
theorem discoverMeta_foreign_cursor_forbidden_witness :
    discoverMetaStart (some ["a"]) ["d"] [("b", "cur")] =
      ([], some .forbidden) :=
  discoverMeta_foreign_cursor_forbidden (some ["a"]) ["d"] [("b", "cur")]
    ("b", "cur") (List.mem_singleton.mpr rfl) (by decide)

/-! ## `GraffitiDecentralized.delete` — the cross-actor check

`delete` resolves the session (a local lookup in the logged-in-session
store, no network), decodes the object URL, and throws `Forbidden` when the
embedded actor differs from the session actor — before the personal-inbox
query, the bucket delete and the tombstone announcement, which are the only
network actions of the operation. -/

structure ResolvedSession where
  personalInboxEndpoint : String
  storageBucketEndpoint : String
deriving DecidableEq

structure DeleteQueryResult where
  url : List Nat
  tombstone : Bool
  storageBucketKey : String
deriving DecidableEq

inductive NetworkAction where
  | inboxQuery (endpoint : String) (tag : List Nat)
  | bucketDelete (endpoint : String) (key : String)
  | announceSend (endpoint : String)
deriving DecidableEq

inductive DeleteError where
  | invalidObjectUrl
  | forbidden
  | noSession
  | notFound
deriving DecidableEq

/-- `delete(url, session)` up to and including its network actions: the pair
collects the network actions issued (in order) and the error, if any.
`queryResults` are the results of the URL-tag query of the personal inbox;
`announceActions` the sends of the subsequent `announceObject`. -/
def deleteObject (resolved : Option ResolvedSession)
    (sessionActor : List Nat) (objectUrl : List Nat)
    (queryResults : List DeleteQueryResult)
    (announceActions : List NetworkAction) :
    List NetworkAction × Option DeleteError :=
  match decodeObjectUrl objectUrl with
  | none => ([], some .invalidObjectUrl)
  | some (actor, _) =>
    if actor ≠ sessionActor then ([], some .forbidden)
    else
      match resolved with
      | none => ([], some .noSession)
      | some rs =>
        let queryAction := NetworkAction.inboxQuery rs.personalInboxEndpoint
          objectUrl
        let existing := queryResults.foldl (fun acc r =>
          if r.url ≠ objectUrl then acc
          else if r.tombstone then none else some r) none
        match existing with
        | none => ([queryAction], some .notFound)
        | some r =>
          (queryAction ::
            NetworkAction.bucketDelete rs.storageBucketEndpoint
              r.storageBucketKey :: announceActions,
            none)

/-- Claim C8: Cross-actor delete is forbidden locally: when the actor embedded
in the object URL differs from the session's actor, `delete` raises
`Forbidden` and issues no network action at all (no inbox query, no bucket
delete, no announcement). -/
theorem delete_cross_actor_forbidden (resolved : Option ResolvedSession)
    (sessionActor objectUrl : List Nat)
    (queryResults : List DeleteQueryResult)
    (announceActions : List NetworkAction)
    (actor contentAddress : List Nat)
    (hurl : decodeObjectUrl objectUrl = some (actor, contentAddress))
    (hne : actor ≠ sessionActor) :
    deleteObject resolved sessionActor objectUrl queryResults announceActions =
      ([], some .forbidden) := by
  rw [deleteObject.eq_def, hurl]
  simp [hne]

/-- Witness for C8: actor `"b"`'s object URL deleted under actor `"a"`'s
session. -/
theorem delete_cross_actor_forbidden_witness :
    deleteObject (some ⟨"pi", "sb"⟩) [97] (encodeObjectUrl [98] [117])
        [⟨[5], false, "k"⟩] [NetworkAction.announceSend "pi"] =
      ([], some .forbidden) :=
  delete_cross_actor_forbidden _ _ _ _ _ [98] [117] (by rfl) (by decide)

end Graffiti

namespace Graffiti

/-! ## `GraffitiDecentralized.announceObject`
(`src/src/3-protocol/4-graffiti.ts`, lines 816–983)

The announcement engine sends one message per allowed recipient (private
objects) or one per configured shared inbox (public objects), followed by
the self-announcement to the session's own personal inbox.  Identity
resolution and the message-id returned by each send are oracles. -/

structure GObject where
  url : String
  actor : String
  value : Nat
  channels : List String
  allowed : Option (List String)
deriving DecidableEq

/-- Modelled from the spec: `maskGraffitiObject` is imported from the
external `@graffiti-garden/api` package and its source is not part of this
repository.  Spec §3 invariant 5: "An announcement to a given inbox MUST
mask out all channels from the embedded Object and reduce `allowed` to the
single recipient (per-recipient delivery) or to the public form (shared
inboxes)."  The second argument is the list of channels to keep (both call
sites pass `[]`); with a recipient the allowed list becomes that single
recipient, without one it becomes the public form (`null`). -/
def maskGraffitiObject (o : GObject) (keepChannels : List String)
    (recipient : Option String) : GObject :=
  { o with
    channels := o.channels.filter (fun c => keepChannels.contains c),
    allowed := recipient.map (fun r => [r]) }

structure Announcement where
  id : String
  e : Option String
  a : Option String
deriving DecidableEq

/-- The three metadata envelopes: base (shared-inbox deliveries), private
(per-recipient deliveries: the recipient's ticket and allowed-list index)
and self (the sender's own copy: all tickets and the announcement receipts). -/
inductive MessageMetadataM where
  | base (k : String) (t : Option String)
  | priv (k : String) (t : Option String) (a : List Nat) (i : Nat)
  | selfMeta (k : String) (t : Option String) (s : Option (List (List Nat)))
      (n : List Announcement)
deriving DecidableEq

inductive Destination where
  | recipientInbox (endpoint : String) (recipient : String)
  | sharedInbox (endpoint : String)
  | selfInbox (endpoint : String)
deriving DecidableEq

structure SentMessage where
  dest : Destination
  tags : List (List Nat)
  object : GObject
  meta : MessageMetadataM
deriving DecidableEq

inductive AnnounceError where
  | ticketCountMismatch
deriving DecidableEq

/-- JavaScript truthiness of an optional string: the empty string is falsy,
so `...(tombstonedMessageId ? {t: ...} : {})` omits it. -/
def truthyString (o : Option String) : Option String :=
  match o with
  | some s => if s = "" then none else some s
  | none => none

def findPriorByActor (prior : Option (List Announcement)) (actor : String) :
    Option String :=
  match prior with
  | none => none
  | some l => (l.find? (fun an => an.a == some actor)).map (fun an => an.id)

def findPriorByEndpoint (prior : Option (List Announcement))
    (endpoint : String) : Option String :=
  match prior with
  | none => none
  | some l => (l.find? (fun an => an.e == some endpoint)).map (fun an => an.id)

/-- `announceObject`: `resolvePersonalInbox` is the per-recipient DID
resolution (a `none` models a recipient without a valid personal-inbox
service, whose send is skipped after the rejected promise is logged);
`sendId` is the message id the inbox returns for each send. -/
def announceObject (resolvePersonalInbox : String → Option String)
    (sendId : Destination → String)
    (sharedInboxes : List String) (selfInboxEndpoint : String)
    (sessionActor : String) (object : GObject) (tags : List (List Nat))
    (allowedTickets : Option (List (List Nat))) (storageBucketKey : String)
    (priorAnnouncements : Option (List Announcement)) :
    Except AnnounceError (List SentMessage) :=
  match object.allowed with
  | some allowed =>
    match allowedTickets with
    | none => .error .ticketCountMismatch
    | some tickets =>
      if tickets.length ≠ allowed.length then .error .ticketCountMismatch
      else
        let recipientSends := allowed.enum.filterMap (fun p =>
          match resolvePersonalInbox p.2 with
          | none => none
          | some endpoint =>
            some { dest := Destination.recipientInbox endpoint p.2,
                   tags := tags,
                   object := maskGraffitiObject object [] (some p.2),
                   meta := MessageMetadataM.priv storageBucketKey
                     (truthyString (findPriorByActor priorAnnouncements p.2))
                     (tickets.getD p.1 []) p.1 })
        let announcements := recipientSends.map (fun s =>
          match s.dest with
          | Destination.recipientInbox _ r => ⟨sendId s.dest, none, some r⟩
          | d => ⟨sendId d, none, none⟩)
        .ok (recipientSends ++
          [{ dest := Destination.selfInbox selfInboxEndpoint,
             tags := tags,
             object := object,
             meta := MessageMetadataM.selfMeta storageBucketKey
               (truthyString (findPriorByActor priorAnnouncements sessionActor))
               allowedTickets announcements }])
  | none =>
    let masked := maskGraffitiObject object [] none
    let sharedSends := sharedInboxes.map (fun endpoint =>
      { dest := Destination.sharedInbox endpoint,
        tags := tags,
        object := masked,
        meta := MessageMetadataM.base storageBucketKey
          (truthyString (findPriorByEndpoint priorAnnouncements endpoint)) })
    let announcements := sharedSends.map (fun s =>
      match s.dest with
      | Destination.sharedInbox e => ⟨sendId s.dest, some e, none⟩
      | d => ⟨sendId d, none, none⟩)
    .ok (sharedSends ++
      [{ dest := Destination.selfInbox selfInboxEndpoint,
         tags := tags,
         object := object,
         meta := MessageMetadataM.selfMeta storageBucketKey
           (truthyString (findPriorByActor priorAnnouncements sessionActor))
           allowedTickets announcements }])

/-- What C5 claims of each sent message, by destination: recipient inboxes
get empty channels and the allowed list reduced to that one recipient;
shared inboxes get empty channels and the public allowed form; only the
self-announcement carries the object in full. -/
def MaskedOk (object : GObject) (s : SentMessage) : Prop :=
  match s.dest with
  | Destination.recipientInbox _ r =>
    s.object.channels = [] ∧ s.object.allowed = some [r]
  | Destination.sharedInbox _ =>
    s.object.channels = [] ∧ s.object.allowed = none
  | Destination.selfInbox _ => s.object = object

theorem maskGraffitiObject_nil_channels (o : GObject) (r : Option String) :
    (maskGraffitiObject o [] r).channels = [] := by
  simp [maskGraffitiObject]

/-- Claim C5: Announcement masking invariant: every message `announceObject`
sends to a recipient's personal inbox carries an object with no channels and
`allowed` reduced to exactly that recipient; every message to a shared inbox
carries an object with no channels and the public allowed form; only the
self-announcement to the sender's own personal inbox carries the full
channels and allowed lists. -/
theorem announceObject_masking (resolvePersonalInbox : String → Option String)
    (sendId : Destination → String) (sharedInboxes : List String)
    (selfInboxEndpoint sessionActor : String) (object : GObject)
    (tags : List (List Nat)) (allowedTickets : Option (List (List Nat)))
    (storageBucketKey : String)
    (priorAnnouncements : Option (List Announcement))
    (sends : List SentMessage)
    (h : announceObject resolvePersonalInbox sendId sharedInboxes
        selfInboxEndpoint sessionActor object tags allowedTickets
        storageBucketKey priorAnnouncements = .ok sends) :
    ∀ s ∈ sends, MaskedOk object s := by
  intro s hs
  rw [announceObject.eq_def] at h
  cases hallowed : object.allowed with
  | some allowed =>
    cases htickets : allowedTickets with
    | none =>
      simp only [hallowed, htickets] at h
      exact absurd h (by simp)
    | some tickets =>
      simp only [hallowed, htickets] at h
      by_cases hlen : tickets.length ≠ allowed.length
      · rw [if_pos hlen] at h; exact absurd h (by simp)
      · rw [if_neg hlen] at h
        simp only [Except.ok.injEq] at h
        subst h
        rw [List.mem_append] at hs
        rcases hs with hs | hs
        · rcases List.mem_filterMap.mp hs with ⟨p, _, hp⟩
          cases hres : resolvePersonalInbox p.2 with
          | none => rw [hres] at hp; exact absurd hp (by simp)
          | some endpoint =>
            rw [hres] at hp
            simp only [Option.some.injEq] at hp
            subst hp
            exact ⟨maskGraffitiObject_nil_channels object (some p.2), rfl⟩
        · rw [List.mem_singleton] at hs
          subst hs
          rfl
  | none =>
    simp only [hallowed, Except.ok.injEq] at h
    subst h
    rw [List.mem_append] at hs
    rcases hs with hs | hs
    · rcases List.mem_map.mp hs with ⟨endpoint, _, hp⟩
      subst hp
      exact ⟨maskGraffitiObject_nil_channels object none, rfl⟩
    · rw [List.mem_singleton] at hs
      subst hs
      rfl

/-- Witness for C5: a private post to the single recipient `"b"` produces a
per-recipient message masked to `channels = []`, `allowed = ["b"]`, and a
self-announcement carrying the object in full. -/
theorem announceObject_masking_witness :
    MaskedOk ⟨"u", "a", 0, ["c"], some ["b"]⟩
      { dest := Destination.recipientInbox "eb" "b",
        tags := [],
        object := ⟨"u", "a", 0, [], some ["b"]⟩,
        meta := MessageMetadataM.priv "k" none [1] 0 } ∧
    MaskedOk ⟨"u", "a", 0, ["c"], some ["b"]⟩
      { dest := Destination.selfInbox "es",
        tags := [],
        object := ⟨"u", "a", 0, ["c"], some ["b"]⟩,
        meta := MessageMetadataM.selfMeta "k" none (some [[1]])
          [⟨"id", none, some "b"⟩] } := by
  have h := announceObject_masking (fun _ => some "eb") (fun _ => "id") []
    "es" "a" ⟨"u", "a", 0, ["c"], some ["b"]⟩ [] (some [[1]]) "k" none
    [{ dest := Destination.recipientInbox "eb" "b",
       tags := [],
       object := ⟨"u", "a", 0, [], some ["b"]⟩,
       meta := MessageMetadataM.priv "k" none [1] 0 },
     { dest := Destination.selfInbox "es",
       tags := [],
       object := ⟨"u", "a", 0, ["c"], some ["b"]⟩,
       meta := MessageMetadataM.selfMeta "k" none (some [[1]])
         [⟨"id", none, some "b"⟩] }] rfl
  exact ⟨h _ (by simp), h _ (by simp)⟩

end Graffiti

namespace Graffiti

/-! ## `Inboxes.messageStreamer` (`src/unnamed/part_004`)

The resumable paged stream with its query cache.  Time is explicit: a fetch
issued at time `t` receives its response at `t + duration`; `Retry-After: N`
turns into `waitTil = receipt + N * 1000` (`Date.now() + retryAfter * 1000`),
honoured by `waitFor` before the next request.  The server is an oracle: the
list of outcomes its successive responses produce. -/

structure CacheEntry where
  cursor : String
  version : String
  messageIds : List String
  waitTil : Option Nat
deriving DecidableEq

inductive FetchOutcome where
  | success (retryAfter : Option Nat) (results : List String) (hasMore : Bool)
      (nextCursor : String) (duration : Nat)
  | cursorExpired (duration : Nat)
  | failure (duration : Nat)
deriving DecidableEq

structure Request where
  sentAt : Nat
  cursor : Option String
  receivedAt : Nat
  retryAfter : Option Nat
  waitTilComputed : Option Nat
deriving DecidableEq

structure Step where
  req : Request
  write : Option CacheEntry
deriving DecidableEq

inductive StreamError where
  | cursorExpired
  | otherFailure
  | outOfResponses
deriving DecidableEq

structure StreamRun where
  steps : List Step
  yields : List String
  cacheDeleted : Bool
  error : Option StreamError
deriving DecidableEq

/-- `waitFor(waitTil)`: wait until the persisted timestamp, if any. -/
def waitTime (t : Nat) (waitTil : Option Nat) : Nat :=
  match waitTil with
  | some w => max t w
  | none => t

/-- `retryAfter && isFinite(retryAfter) ? Date.now() + retryAfter * 1000 :
undefined` — `0` is falsy. -/
def computeWaitTil (receipt : Nat) (retryAfter : Option Nat) : Option Nat :=
  match retryAfter with
  | some n => if n = 0 then none else some (receipt + n * 1000)
  | none => none

/-- Truthiness of `cachedMessageIds?.cursor`. -/
def cursorTruthy (cached : Option CacheEntry) : Bool :=
  match cached with
  | some c => c.cursor != ""
  | none => false

/-- The page loop of `messageStreamer` from an already-issued request
(`sentAt`, `cursorUsed`) whose outcome is the given one: on success, cache
the page (cursor, version, accumulated message ids and `waitTil` together),
yield the results, and when the server has more, wait for `waitTil` and
fetch the next page; a thrown error ends the loop. -/
def runPages (version : String) (messageIds : List String)
    (sentAt : Nat) (cursorUsed : Option String) :
    FetchOutcome → List FetchOutcome →
      List Step × List String × Option StreamError
  | FetchOutcome.cursorExpired d, _ =>
    let step : Step :=
      { req :=
          { sentAt := sentAt, cursor := cursorUsed,
            receivedAt := sentAt + d, retryAfter := none,
            waitTilComputed := none },
        write := none }
    ([step], [], some .cursorExpired)
  | FetchOutcome.failure d, _ =>
    let step : Step :=
      { req :=
          { sentAt := sentAt, cursor := cursorUsed,
            receivedAt := sentAt + d, retryAfter := none,
            waitTilComputed := none },
        write := none }
    ([step], [], some .otherFailure)
  | FetchOutcome.success ra results hasMore nextCursor d, rest =>
    let receipt := sentAt + d
    let wt := computeWaitTil receipt ra
    let ids := messageIds ++ results
    let entry : CacheEntry :=
      { cursor := nextCursor, version := version, messageIds := ids,
        waitTil := wt }
    let step : Step :=
      { req :=
          { sentAt := sentAt, cursor := cursorUsed, receivedAt := receipt,
            retryAfter := ra, waitTilComputed := wt },
        write := some entry }
    if hasMore then
      match rest with
      | [] => ([step], results, some .outOfResponses)
      | r :: rest2 =>
        let out := runPages version ids (waitTime receipt wt)
          (some nextCursor) r rest2
        (step :: out.1, results ++ out.2.1, out.2.2)
    else ([step], results, none)

/-- `messageStreamer`: check the continuation version against the cached
version; wait for the persisted `waitTil`; probe the server with the cached
cursor; on "cursor expired" with a cached cursor, delete the cache and
either restart from scratch (fresh query) or surface `CursorExpired`
(continuation); on success, replay the cache then stream pages. -/
def messageStreamer (cacheVersion : Option String)
    (cached : Option CacheEntry) (responses : List FetchOutcome)
    (t0 : Nat) (freshVersion : String) (cacheNumSeen : Nat) : StreamRun :=
  if cacheVersion.isSome ∧ cacheVersion ≠ cached.map (fun c => c.version) then
    { steps := [], yields := [], cacheDeleted := false,
      error := some .cursorExpired }
  else
    match responses with
    | [] =>
      { steps := [], yields := [], cacheDeleted := false,
        error := some .outOfResponses }
    | r :: rest =>
      let t1 := waitTime t0 (cached.bind (fun c => c.waitTil))
      let cursorUsed := cached.map (fun c => c.cursor)
      match r with
      | FetchOutcome.cursorExpired d =>
        let step : Step :=
          { req :=
              { sentAt := t1, cursor := cursorUsed, receivedAt := t1 + d,
                retryAfter := none, waitTilComputed := none },
            write := none }
        if cursorTruthy cached then
          if cacheVersion = none then
            let restart := messageStreamer none none rest (t1 + d)
              freshVersion 0
            { steps := step :: restart.steps, yields := restart.yields,
              cacheDeleted := true, error := restart.error }
          else
            { steps := [step], yields := [], cacheDeleted := true,
              error := some .cursorExpired }
        else
          { steps := [step], yields := [], cacheDeleted := false,
            error := some .cursorExpired }
      | FetchOutcome.failure d =>
        let step : Step :=
          { req :=
              { sentAt := t1, cursor := cursorUsed,
                receivedAt := t1 + d, retryAfter := none,
                waitTilComputed := none },
            write := none }
        { steps := [step], yields := [], cacheDeleted := false,
          error := some .otherFailure }
      | FetchOutcome.success ra results hasMore nextCursor d =>
        let cacheYields :=
          match cached with
          | some c => c.messageIds.drop cacheNumSeen
          | none => []
        let version := (cached.map (fun c => c.version)).getD freshVersion
        let ids := (cached.map (fun c => c.messageIds)).getD []
        let out := runPages version ids t1 cursorUsed
          (FetchOutcome.success ra results hasMore nextCursor d) rest
        { steps := out.1, yields := cacheYields ++ out.2.1,
          cacheDeleted := false, error := out.2.2 }

end Graffiti

namespace Graffiti

/-- Unfolding equations for `messageStreamer` (one per shape of the head
response), provable by reflexivity. -/
theorem messageStreamer_nil (cv : Option String) (cached : Option CacheEntry)
    (t0 : Nat) (f : String) (ns : Nat) :
    messageStreamer cv cached [] t0 f ns =
      if cv.isSome ∧ cv ≠ cached.map (fun c => c.version) then
        { steps := [], yields := [], cacheDeleted := false,
          error := some .cursorExpired }
      else
        { steps := [], yields := [], cacheDeleted := false,
          error := some .outOfResponses } := rfl

theorem messageStreamer_expired_cons (cv : Option String)
    (cached : Option CacheEntry) (rest : List FetchOutcome) (t0 : Nat)
    (f : String) (ns d : Nat) :
    messageStreamer cv cached (FetchOutcome.cursorExpired d :: rest) t0 f ns =
      if cv.isSome ∧ cv ≠ cached.map (fun c => c.version) then
        { steps := [], yields := [], cacheDeleted := false,
          error := some .cursorExpired }
      else
        (if cursorTruthy cached then
          if cv = none then
            { steps := ⟨⟨waitTime t0 (cached.bind fun c => c.waitTil),
                  cached.map fun c => c.cursor,
                  waitTime t0 (cached.bind fun c => c.waitTil) + d,
                  none, none⟩, none⟩ ::
                (messageStreamer none none rest
                  (waitTime t0 (cached.bind fun c => c.waitTil) + d) f 0).steps,
              yields := (messageStreamer none none rest
                (waitTime t0 (cached.bind fun c => c.waitTil) + d) f 0).yields,
              cacheDeleted := true,
              error := (messageStreamer none none rest
                (waitTime t0 (cached.bind fun c => c.waitTil) + d) f 0).error }
          else
            { steps := [⟨⟨waitTime t0 (cached.bind fun c => c.waitTil),
                  cached.map fun c => c.cursor,
                  waitTime t0 (cached.bind fun c => c.waitTil) + d,
                  none, none⟩, none⟩],
              yields := [], cacheDeleted := true,
              error := some .cursorExpired }
        else
          { steps := [⟨⟨waitTime t0 (cached.bind fun c => c.waitTil),
                cached.map fun c => c.cursor,
                waitTime t0 (cached.bind fun c => c.waitTil) + d,
                none, none⟩, none⟩],
            yields := [], cacheDeleted := false,
            error := some .cursorExpired }) := rfl

theorem messageStreamer_failure_cons (cv : Option String)
    (cached : Option CacheEntry) (rest : List FetchOutcome) (t0 : Nat)
    (f : String) (ns d : Nat) :
    messageStreamer cv cached (FetchOutcome.failure d :: rest) t0 f ns =
      if cv.isSome ∧ cv ≠ cached.map (fun c => c.version) then
        { steps := [], yields := [], cacheDeleted := false,
          error := some .cursorExpired }
      else
        { steps := [⟨⟨waitTime t0 (cached.bind fun c => c.waitTil),
              cached.map fun c => c.cursor,
              waitTime t0 (cached.bind fun c => c.waitTil) + d,
              none, none⟩, none⟩],
          yields := [], cacheDeleted := false,
          error := some .otherFailure } := rfl

theorem messageStreamer_success_cons (cv : Option String)
    (cached : Option CacheEntry) (rest : List FetchOutcome) (t0 : Nat)
    (f : String) (ns : Nat) (ra : Option Nat) (results : List String)
    (hasMore : Bool) (nextCursor : String) (d : Nat) :
    messageStreamer cv cached
        (FetchOutcome.success ra results hasMore nextCursor d :: rest)
        t0 f ns =
      if cv.isSome ∧ cv ≠ cached.map (fun c => c.version) then
        { steps := [], yields := [], cacheDeleted := false,
          error := some .cursorExpired }
      else
        { steps := (runPages ((cached.map fun c => c.version).getD f)
            ((cached.map fun c => c.messageIds).getD [])
            (waitTime t0 (cached.bind fun c => c.waitTil))
            (cached.map fun c => c.cursor)
            (FetchOutcome.success ra results hasMore nextCursor d) rest).1,
          yields := (match cached with
            | some c => c.messageIds.drop ns
            | none => []) ++
            (runPages ((cached.map fun c => c.version).getD f)
              ((cached.map fun c => c.messageIds).getD [])
              (waitTime t0 (cached.bind fun c => c.waitTil))
              (cached.map fun c => c.cursor)
              (FetchOutcome.success ra results hasMore nextCursor d) rest).2.1,
          cacheDeleted := false,
          error := (runPages ((cached.map fun c => c.version).getD f)
            ((cached.map fun c => c.messageIds).getD [])
            (waitTime t0 (cached.bind fun c => c.waitTil))
            (cached.map fun c => c.cursor)
            (FetchOutcome.success ra results hasMore nextCursor d) rest).2.2 } :=
  rfl

/-- Claim C3: Resuming an inbox stream raises `CursorExpired` exactly when the
resume cannot reuse the cache: (1) a continuation whose cursor version
differs from the cached version raises `CursorExpired` before any request;
(2) a continuation whose cached server cursor the server rejects as expired
has the query cache deleted and raises `CursorExpired`; (3) a fresh
(non-continuation) query whose cached cursor is rejected deletes the cache
and silently restarts from scratch: its run is exactly the failed probe
followed by a run with no cache and no version, raising nothing of its own. -/
theorem inbox_resume_cursor_expired (responses rest : List FetchOutcome)
    (t0 ns d : Nat) (freshVersion v : String) (cached : Option CacheEntry)
    (c : CacheEntry) :
    (cached.map (fun e => e.version) ≠ some v →
      messageStreamer (some v) cached responses t0 freshVersion ns =
        { steps := [], yields := [], cacheDeleted := false,
          error := some .cursorExpired }) ∧
    (c.cursor ≠ "" →
      messageStreamer (some c.version) (some c)
          (FetchOutcome.cursorExpired d :: rest) t0 freshVersion ns =
        { steps := [⟨⟨waitTime t0 c.waitTil, some c.cursor,
              waitTime t0 c.waitTil + d, none, none⟩, none⟩],
          yields := [], cacheDeleted := true,
          error := some .cursorExpired }) ∧
    (c.cursor ≠ "" →
      messageStreamer none (some c)
          (FetchOutcome.cursorExpired d :: rest) t0 freshVersion ns =
        { steps := ⟨⟨waitTime t0 c.waitTil, some c.cursor,
              waitTime t0 c.waitTil + d, none, none⟩, none⟩ ::
            (messageStreamer none none rest (waitTime t0 c.waitTil + d)
              freshVersion 0).steps,
          yields := (messageStreamer none none rest
            (waitTime t0 c.waitTil + d) freshVersion 0).yields,
          cacheDeleted := true,
          error := (messageStreamer none none rest
            (waitTime t0 c.waitTil + d) freshVersion 0).error }) := by
  have hpos : ((some v).isSome ∧ some v ≠ cached.map (fun e => e.version)) ↔
      cached.map (fun e => e.version) ≠ some v := by
    constructor
    · rintro ⟨_, hne⟩ he; exact hne he.symm
    · intro h; exact ⟨rfl, fun he => h he.symm⟩
  refine ⟨?_, ?_, ?_⟩
  · intro h
    cases responses with
    | nil => rw [messageStreamer_nil, if_pos (hpos.mpr h)]
    | cons r rest2 =>
      cases r with
      | cursorExpired d2 =>
        rw [messageStreamer_expired_cons, if_pos (hpos.mpr h)]
      | failure d2 =>
        rw [messageStreamer_failure_cons, if_pos (hpos.mpr h)]
      | success ra results hasMore nextCursor d2 =>
        rw [messageStreamer_success_cons, if_pos (hpos.mpr h)]
  · intro h
    rw [messageStreamer_expired_cons,
      if_neg (by rintro ⟨_, hne⟩; exact hne rfl)]
    have hct : cursorTruthy (some c) = true := by
      simp [cursorTruthy, h]
    rw [hct, if_pos rfl, if_neg (by simp)]
    rfl
  · intro h
    rw [messageStreamer_expired_cons,
      if_neg (by rintro ⟨hs, _⟩; exact absurd hs (by simp))]
    have hct : cursorTruthy (some c) = true := by
      simp [cursorTruthy, h]
    rw [hct, if_pos rfl, if_pos rfl]
    rfl

/-- Witness for C3, on a cache entry with cursor `"cur"` and version `"v"`:
a continuation with mismatched version raises with no request; a
continuation whose cursor the server expires deletes the cache and raises;
a fresh query restarts from scratch after the failed probe. -/
theorem inbox_resume_cursor_expired_witness :
    messageStreamer (some "w") (some ⟨"cur", "v", [], none⟩) [] 0 "f" 0 =
      { steps := [], yields := [], cacheDeleted := false,
        error := some .cursorExpired } ∧
    messageStreamer (some "v") (some ⟨"cur", "v", [], none⟩)
        [FetchOutcome.cursorExpired 0] 0 "f" 0 =
      { steps := [⟨⟨0, some "cur", 0, none, none⟩, none⟩],
        yields := [], cacheDeleted := true,
        error := some .cursorExpired } ∧
    messageStreamer none (some ⟨"cur", "v", [], none⟩)
        [FetchOutcome.cursorExpired 0] 0 "f" 0 =
      { steps := ⟨⟨0, some "cur", 0, none, none⟩, none⟩ ::
          (messageStreamer none none [] 0 "f" 0).steps,
        yields := (messageStreamer none none [] 0 "f" 0).yields,
        cacheDeleted := true,
        error := (messageStreamer none none [] 0 "f" 0).error } := by
  have h := inbox_resume_cursor_expired [] [] 0 0 0 "f" "w"
    (some ⟨"cur", "v", [], none⟩) ⟨"cur", "v", [], none⟩
  exact ⟨h.1 (by simp), h.2.1 (by simp), h.2.2 (by simp)⟩

/-- The rate-limit obligation between two consecutive requests of one
stream: if the earlier one's response carried `Retry-After: n`, the later
one is issued no earlier than `n` seconds (`n * 1000` ms) after the
response was received. -/
def waitHonored (r1 r2 : Request) : Prop :=
  ∀ n, r1.retryAfter = some n → r1.receivedAt + n * 1000 ≤ r2.sentAt

theorem le_waitTime_computeWaitTil (receipt n : Nat) :
    receipt + n * 1000 ≤ waitTime receipt (computeWaitTil receipt (some n)) := by
  by_cases h : n = 0
  · subst h; simp [computeWaitTil, waitTime]
  · simp only [computeWaitTil, if_neg h, waitTime]
    exact Nat.le_max_right _ _

theorem runPages_spec :
    ∀ (rest : List FetchOutcome) (version : String) (ids : List String)
      (sentAt : Nat) (cursorUsed : Option String) (outcome : FetchOutcome),
      (∃ s tail, (runPages version ids sentAt cursorUsed outcome rest).1 =
        s :: tail ∧ s.req.sentAt = sentAt) ∧
      List.Chain' waitHonored
        ((runPages version ids sentAt cursorUsed outcome rest).1.map
          (fun s => s.req)) ∧
      (∀ s ∈ (runPages version ids sentAt cursorUsed outcome rest).1,
        (∀ w, s.write = some w → w.waitTil = s.req.waitTilComputed) ∧
        s.req.waitTilComputed =
          computeWaitTil s.req.receivedAt s.req.retryAfter) := by
  intro rest
  induction rest with
  | nil =>
    intro version ids sentAt cursorUsed outcome
    cases outcome with
    | cursorExpired d =>
      refine ⟨⟨_, _, rfl, rfl⟩, List.chain'_singleton _, ?_⟩
      intro s hs
      rw [show (runPages version ids sentAt cursorUsed
        (FetchOutcome.cursorExpired d) []).1 =
        [⟨⟨sentAt, cursorUsed, sentAt + d, none, none⟩, none⟩] from rfl,
        List.mem_singleton] at hs
      subst hs
      exact ⟨fun w hw => Option.noConfusion hw, rfl⟩
    | failure d =>
      refine ⟨⟨_, _, rfl, rfl⟩, List.chain'_singleton _, ?_⟩
      intro s hs
      rw [show (runPages version ids sentAt cursorUsed
        (FetchOutcome.failure d) []).1 =
        [⟨⟨sentAt, cursorUsed, sentAt + d, none, none⟩, none⟩] from rfl,
        List.mem_singleton] at hs
      subst hs
      exact ⟨fun w hw => Option.noConfusion hw, rfl⟩
    | success ra results hasMore nextCursor d =>
      cases hasMore with
      | false =>
        refine ⟨⟨_, _, rfl, rfl⟩, List.chain'_singleton _, ?_⟩
        intro s hs
        rw [show (runPages version ids sentAt cursorUsed
          (FetchOutcome.success ra results false nextCursor d) []).1 =
          [⟨⟨sentAt, cursorUsed, sentAt + d, ra,
            computeWaitTil (sentAt + d) ra⟩,
            some ⟨nextCursor, version, ids ++ results,
              computeWaitTil (sentAt + d) ra⟩⟩] from rfl,
          List.mem_singleton] at hs
        subst hs
        exact ⟨fun w hw => by cases hw; rfl, rfl⟩
      | true =>
        refine ⟨⟨_, _, rfl, rfl⟩, List.chain'_singleton _, ?_⟩
        intro s hs
        rw [show (runPages version ids sentAt cursorUsed
          (FetchOutcome.success ra results true nextCursor d) []).1 =
          [⟨⟨sentAt, cursorUsed, sentAt + d, ra,
            computeWaitTil (sentAt + d) ra⟩,
            some ⟨nextCursor, version, ids ++ results,
              computeWaitTil (sentAt + d) ra⟩⟩] from rfl,
          List.mem_singleton] at hs
        subst hs
        exact ⟨fun w hw => by cases hw; rfl, rfl⟩
  | cons r rest2 ih =>
    intro version ids sentAt cursorUsed outcome
    cases outcome with
    | cursorExpired d =>
      refine ⟨⟨_, _, rfl, rfl⟩, List.chain'_singleton _, ?_⟩
      intro s hs
      rw [show (runPages version ids sentAt cursorUsed
        (FetchOutcome.cursorExpired d) (r :: rest2)).1 =
        [⟨⟨sentAt, cursorUsed, sentAt + d, none, none⟩, none⟩] from rfl,
        List.mem_singleton] at hs
      subst hs
      exact ⟨fun w hw => Option.noConfusion hw, rfl⟩
    | failure d =>
      refine ⟨⟨_, _, rfl, rfl⟩, List.chain'_singleton _, ?_⟩
      intro s hs
      rw [show (runPages version ids sentAt cursorUsed
        (FetchOutcome.failure d) (r :: rest2)).1 =
        [⟨⟨sentAt, cursorUsed, sentAt + d, none, none⟩, none⟩] from rfl,
        List.mem_singleton] at hs
      subst hs
      exact ⟨fun w hw => Option.noConfusion hw, rfl⟩
    | success ra results hasMore nextCursor d =>
      cases hasMore with
      | false =>
        refine ⟨⟨_, _, rfl, rfl⟩, List.chain'_singleton _, ?_⟩
        intro s hs
        rw [show (runPages version ids sentAt cursorUsed
          (FetchOutcome.success ra results false nextCursor d) (r :: rest2)).1 =
          [⟨⟨sentAt, cursorUsed, sentAt + d, ra,
            computeWaitTil (sentAt + d) ra⟩,
            some ⟨nextCursor, version, ids ++ results,
              computeWaitTil (sentAt + d) ra⟩⟩] from rfl,
          List.mem_singleton] at hs
        subst hs
        exact ⟨fun w hw => by cases hw; rfl, rfl⟩
      | true =>
        have hout : (runPages version ids sentAt cursorUsed
            (FetchOutcome.success ra results true nextCursor d)
            (r :: rest2)).1 =
            ⟨⟨sentAt, cursorUsed, sentAt + d, ra,
              computeWaitTil (sentAt + d) ra⟩,
              some ⟨nextCursor, version, ids ++ results,
                computeWaitTil (sentAt + d) ra⟩⟩ ::
            (runPages version (ids ++ results)
              (waitTime (sentAt + d) (computeWaitTil (sentAt + d) ra))
              (some nextCursor) r rest2).1 := rfl
        have hih := ih version (ids ++ results)
          (waitTime (sentAt + d) (computeWaitTil (sentAt + d) ra))
          (some nextCursor) r
        obtain ⟨⟨s1, tail1, hs1, hsent1⟩, hchain, hall⟩ := hih
        refine ⟨⟨_, _, hout, rfl⟩, ?_, ?_⟩
        · rw [hout, List.map_cons]
          rw [List.chain'_cons']
          refine ⟨?_, hchain⟩
          intro b hb
          rw [hs1, List.map_cons, List.head?_cons, Option.mem_def,
            Option.some.injEq] at hb
          subst hb
          intro n hn
          simp only at hn
          subst hn
          rw [hsent1]
          exact le_waitTime_computeWaitTil (sentAt + d) n
        · intro s hs
          rw [hout, List.mem_cons] at hs
          rcases hs with rfl | hs
          · exact ⟨fun w hw => by cases hw; rfl, rfl⟩
          · exact hall s hs

end Graffiti

namespace Graffiti

/-- Claim C7: Rate-limit backoff: in every run of `messageStreamer`,
(i) consecutive requests honour `Retry-After`: after a response carrying
`Retry-After: n`, the next request of the stream is issued no earlier than
`n` seconds after the response was received; (ii) every cache write persists
the computed `waitTil` alongside the cursor and version, and that `waitTil`
is receipt time plus `n * 1000` ms whenever the response carried
`Retry-After: n` with `n > 0`; (iii) a stream resumed over a cache whose
entry holds `waitTil` issues its first request no earlier than that
timestamp. -/
theorem inbox_rate_limit_backoff :
    ∀ (responses : List FetchOutcome) (cacheVersion : Option String)
      (cached : Option CacheEntry) (t0 : Nat) (freshVersion : String)
      (ns : Nat),
      List.Chain' waitHonored
        ((messageStreamer cacheVersion cached responses t0 freshVersion
          ns).steps.map (fun s => s.req)) ∧
      (∀ s ∈ (messageStreamer cacheVersion cached responses t0 freshVersion
          ns).steps,
        (∀ w, s.write = some w → w.waitTil = s.req.waitTilComputed) ∧
        (∀ n, s.req.retryAfter = some n → 0 < n →
          s.req.waitTilComputed = some (s.req.receivedAt + n * 1000))) ∧
      (∀ c wt, cached = some c → c.waitTil = some wt →
        ∀ s tail,
          (messageStreamer cacheVersion cached responses t0 freshVersion
            ns).steps = s :: tail → wt ≤ s.req.sentAt) := by
  have hformula : ∀ (s : Step),
      s.req.waitTilComputed =
        computeWaitTil s.req.receivedAt s.req.retryAfter →
      ∀ n, s.req.retryAfter = some n → 0 < n →
        s.req.waitTilComputed = some (s.req.receivedAt + n * 1000) := by
    intro s hf n hn hpos
    rw [hf, hn, computeWaitTil, if_neg (by omega)]
  intro responses
  induction responses with
  | nil =>
    intro cv cached t0 f ns
    rw [messageStreamer_nil]
    by_cases hg : cv.isSome ∧ cv ≠ cached.map (fun c => c.version)
    · rw [if_pos hg]
      exact ⟨List.chain'_nil, fun s hs => absurd hs (by simp),
        fun c wt _ _ s tail h => List.noConfusion h⟩
    · rw [if_neg hg]
      exact ⟨List.chain'_nil, fun s hs => absurd hs (by simp),
        fun c wt _ _ s tail h => List.noConfusion h⟩
  | cons r rest ih =>
    intro cv cached t0 f ns
    cases r with
    | cursorExpired d =>
      rw [messageStreamer_expired_cons]
      by_cases hg : cv.isSome ∧ cv ≠ cached.map (fun c => c.version)
      · rw [if_pos hg]
        exact ⟨List.chain'_nil, fun s hs => absurd hs (by simp),
          fun c wt _ _ s tail h => List.noConfusion h⟩
      · rw [if_neg hg]
        by_cases hct : cursorTruthy cached = true
        · rw [if_pos hct]
          by_cases hcv : cv = none
          · rw [if_pos hcv]
            obtain ⟨ihchain, ihall, _⟩ := ih none none (waitTime t0
              (cached.bind fun c => c.waitTil) + d) f 0
            refine ⟨?_, ?_, ?_⟩
            · rw [List.map_cons, List.chain'_cons']
              refine ⟨?_, ihchain⟩
              intro b _ n hn
              exact Option.noConfusion hn
            · intro s hs
              rw [List.mem_cons] at hs
              rcases hs with rfl | hs
              · exact ⟨fun w hw => Option.noConfusion hw,
                  fun n hn _ => Option.noConfusion hn⟩
              · exact ⟨(ihall s hs).1, (ihall s hs).2⟩
            · rintro c wt rfl hwt s tail h
              rw [List.cons.injEq] at h
              rw [← h.1]
              show wt ≤ waitTime t0 ((some c).bind fun c => c.waitTil)
              rw [Option.some_bind, hwt]
              exact Nat.le_max_right _ _
          · rw [if_neg hcv]
            refine ⟨List.chain'_singleton _, ?_, ?_⟩
            · intro s hs
              rw [List.mem_singleton] at hs
              subst hs
              exact ⟨fun w hw => Option.noConfusion hw,
                fun n hn _ => Option.noConfusion hn⟩
            · rintro c wt rfl hwt s tail h
              rw [List.cons.injEq] at h
              rw [← h.1]
              show wt ≤ waitTime t0 ((some c).bind fun c => c.waitTil)
              rw [Option.some_bind, hwt]
              exact Nat.le_max_right _ _
        · rw [if_neg hct]
          refine ⟨List.chain'_singleton _, ?_, ?_⟩
          · intro s hs
            rw [List.mem_singleton] at hs
            subst hs
            exact ⟨fun w hw => Option.noConfusion hw,
              fun n hn _ => Option.noConfusion hn⟩
          · rintro c wt rfl hwt s tail h
            rw [List.cons.injEq] at h
            rw [← h.1]
            show wt ≤ waitTime t0 ((some c).bind fun c => c.waitTil)
            rw [Option.some_bind, hwt]
            exact Nat.le_max_right _ _
    | failure d =>
      rw [messageStreamer_failure_cons]
      by_cases hg : cv.isSome ∧ cv ≠ cached.map (fun c => c.version)
      · rw [if_pos hg]
        exact ⟨List.chain'_nil, fun s hs => absurd hs (by simp),
          fun c wt _ _ s tail h => List.noConfusion h⟩
      · rw [if_neg hg]
        refine ⟨List.chain'_singleton _, ?_, ?_⟩
        · intro s hs
          rw [List.mem_singleton] at hs
          subst hs
          exact ⟨fun w hw => Option.noConfusion hw,
            fun n hn _ => Option.noConfusion hn⟩
        · rintro c wt rfl hwt s tail h
          rw [List.cons.injEq] at h
          rw [← h.1]
          show wt ≤ waitTime t0 ((some c).bind fun c => c.waitTil)
          rw [Option.some_bind, hwt]
          exact Nat.le_max_right _ _
    | success ra results hasMore nextCursor d =>
      rw [messageStreamer_success_cons]
      by_cases hg : cv.isSome ∧ cv ≠ cached.map (fun c => c.version)
      · rw [if_pos hg]
        exact ⟨List.chain'_nil, fun s hs => absurd hs (by simp),
          fun c wt _ _ s tail h => List.noConfusion h⟩
      · rw [if_neg hg]
        obtain ⟨⟨s1, tail1, hs1, hsent1⟩, hchain, hall⟩ := runPages_spec rest
          ((cached.map fun c => c.version).getD f)
          ((cached.map fun c => c.messageIds).getD [])
          (waitTime t0 (cached.bind fun c => c.waitTil))
          (cached.map fun c => c.cursor)
          (FetchOutcome.success ra results hasMore nextCursor d)
        refine ⟨hchain, ?_, ?_⟩
        · intro s hs
          exact ⟨(hall s hs).1, hformula s (hall s hs).2⟩
        · rintro c wt rfl hwt s tail h
          rw [hs1, List.cons.injEq] at h
          rw [← h.1, hsent1]
          show wt ≤ waitTime t0 ((some c).bind fun c => c.waitTil)
          rw [Option.some_bind, hwt]
          exact Nat.le_max_right _ _

end Graffiti

namespace Graffiti

/-- Witness for C7: a run resumed over a cache entry with `waitTil = 500`
whose first page carries `Retry-After: 2`.  The probe waits until `500`,
the second page is fetched at `2500 = 500 + 2 * 1000`, and both cache
writes persist the computed `waitTil`. -/
theorem inbox_rate_limit_backoff_witness :
    (messageStreamer none (some ⟨"cur", "v", ["old"], some 500⟩)
        [FetchOutcome.success (some 2) ["m1"] true "c1" 0,
          FetchOutcome.success none [] false "c2" 0] 0 "f" 0).steps =
      [⟨⟨500, some "cur", 500, some 2, some 2500⟩,
          some ⟨"c1", "v", ["old", "m1"], some 2500⟩⟩,
        ⟨⟨2500, some "c1", 2500, none, none⟩,
          some ⟨"c2", "v", ["old", "m1"], none⟩⟩] ∧
    List.Chain' waitHonored
      ((messageStreamer none (some ⟨"cur", "v", ["old"], some 500⟩)
        [FetchOutcome.success (some 2) ["m1"] true "c1" 0,
          FetchOutcome.success none [] false "c2" 0] 0 "f" 0).steps.map
        (fun s => s.req)) ∧
    500 ≤ ((⟨⟨500, some "cur", 500, some 2, some 2500⟩,
      some ⟨"c1", "v", ["old", "m1"], some 2500⟩⟩ : Step)).req.sentAt := by
  have hsteps : (messageStreamer none (some ⟨"cur", "v", ["old"], some 500⟩)
      [FetchOutcome.success (some 2) ["m1"] true "c1" 0,
        FetchOutcome.success none [] false "c2" 0] 0 "f" 0).steps =
      [⟨⟨500, some "cur", 500, some 2, some 2500⟩,
          some ⟨"c1", "v", ["old", "m1"], some 2500⟩⟩,
        ⟨⟨2500, some "c1", 2500, none, none⟩,
          some ⟨"c2", "v", ["old", "m1"], none⟩⟩] := rfl
  have h := inbox_rate_limit_backoff
    [FetchOutcome.success (some 2) ["m1"] true "c1" 0,
      FetchOutcome.success none [] false "c2" 0] none
    (some ⟨"cur", "v", ["old"], some 500⟩) 0 "f" 0
  exact ⟨hsteps, h.1, h.2.2 ⟨"cur", "v", ["old"], some 500⟩ 500 rfl rfl _ _
    hsteps⟩

end Graffiti
